import Mathlib

/-!
Shallow embedding of magenta.nvim's `ContextManager` (node/context/context-manager.ts).

The manager tracks files (keyed by absolute path) together with the last view of
each file delivered to the agent (`agentView`), and on each synchronization pass
(`getContextUpdate`) reconciles disk/buffer state against that view, producing a
per-path map of updates.  I/O (disk stat/read, buffer queries, PDF extraction)
is modelled by an explicit per-file environment (`FileEnv`) supplying the
results the oracles would return during one reconciliation of that file.
-/

/- `FileCategory` from utils/files (TEXT | IMAGE | PDF | UNSUPPORTED). -/
inductive FileCategory where
  | text
  | image
  | pdf
  | unsupported
deriving DecidableEq, Repr

/- `FileTypeInfo` from utils/files: category plus detected MIME type. -/
structure FileTypeInfo where
  category : FileCategory
  mimeType : String
deriving DecidableEq, Repr

/- The `agentView` field of a tracked file:
   `{ type: "text"; content } | { type: "binary"; mtime }` (`undefined` is
   modelled by `Option`).  `mtime` is `Date.getTime()`, milliseconds as `Int`. -/
inductive AgentView where
  | text (content : String)
  | binary (mtime : Int)
deriving DecidableEq, Repr

/- One entry of the `Files` record: `{ relFilePath, fileTypeInfo, agentView }`.
   The absolute path is the key and is kept outside. -/
structure TrackedFile where
  relFilePath : String
  fileTypeInfo : FileTypeInfo
  agentView : Option AgentView
deriving DecidableEq, Repr

/- `Result<T>` from utils/result: `{status:"ok", value} | {status:"error", error}`. -/
inductive Result (α : Type) where
  | ok (value : α)
  | error (error : String)
deriving DecidableEq, Repr

/-!
### DiffEngine

The repository delegates patch creation to the external npm `diff` library
(`diff.createPatch(relFilePath, prev, cur, "previous", "current",
{context: 2, ignoreNewlineAtEof: true})`), whose code is not part of this
repository.

Modelled from the spec: `DiffEngine.diff(previous, current, label) -> Patch`
"Produces a unified-style textual patch with a fixed context window (2 lines)
and ignores a trailing-newline-only difference at end-of-file (i.e. a file
differing only by a final newline is treated as unchanged for diffing purposes,
though still reported if other lines differ)."

The model works on the line decomposition of each content (lines keep their
terminating newline), ignores a final end-of-file newline on either side, and
records one replacement hunk: the lines kept from the start, the number of old
lines removed, and the new lines inserted.  The unified-text rendering with its
2-line context window is presentation only and carries no extra information,
so the patch is modelled by this structure directly.
-/

/- Split into lines, each line keeping its trailing newline character
   (so flattening the lines gives back the exact character sequence). -/
def splitKE : List Char → List (List Char)
  | [] => []
  | c :: cs =>
    match splitKE cs with
    | [] => [[c]]
    | l :: ls => if c = '\n' then [c] :: l :: ls else (c :: l) :: ls

/- Drop a single trailing newline character, if present (the end-of-file
   newline the diff engine ignores). -/
def stripNl (cs : List Char) : List Char :=
  if cs.getLast? = some '\n' then cs.dropLast else cs

/- `stripNl` lifted to strings. -/
def stripNlStr (s : String) : String :=
  String.mk (stripNl s.data)

/- Length of the longest common prefix of two lists. -/
def commonPrefixLen {α : Type} [DecidableEq α] : List α → List α → Nat
  | x :: xs, y :: ys => if x = y then commonPrefixLen xs ys + 1 else 0
  | _, _ => 0

/- The information content of the unified patch: one replacement hunk. -/
structure PatchData where
  keepCount : Nat
  dropCount : Nat
  addedLines : List (List Char)
deriving DecidableEq, Repr

/- Modelled from the spec: the DiffEngine's patch computation (see above). -/
def createPatch (prev cur : String) : PatchData :=
  let a := splitKE (stripNl prev.data)
  let b := splitKE (stripNl cur.data)
  let p := commonPrefixLen a b
  let ma := a.drop p
  let mb := b.drop p
  let s := commonPrefixLen ma.reverse mb.reverse
  ⟨p, ma.length - s, mb.take (mb.length - s)⟩

/- Modelled from the spec: applying a patch to the previous content (the
   round-trip direction of §8's "Round-trip" property). -/
def applyPatch (prev : String) (patch : PatchData) : String :=
  let a := splitKE (stripNl prev.data)
  String.mk ((a.take patch.keepCount ++ patch.addedLines
      ++ a.drop (patch.keepCount + patch.dropCount)).flatten)

/- `FileUpdate`: `WholeFileUpdate | DiffUpdate | FileDeletedUpdate`. -/
inductive FileUpdate where
  | wholeFile (content : String)
  | diff (patch : PatchData)
  | fileDeleted
deriving DecidableEq, Repr

/-!
### I/O environment for one reconciliation of one file
-/

/- `BufferTracker.getSyncInfo` result: buffer number, the change counter and
   disk mtime observed at the last sync. -/
structure BufSyncInfo where
  bufnr : Nat
  changeTick : Nat
  mtime : Int
deriving DecidableEq, Repr

/- Outcome of `fs.readFileSync` on a text file: content, an ENOENT failure, or
   another I/O error (whose message is the payload). -/
inductive ReadResult where
  | ok (content : String)
  | enoent
  | ioerr (msg : String)
deriving DecidableEq, Repr

/- What the oracles return during one reconciliation of one file.
   `Except.error` models a thrown exception. `bufLines` is the result of the
   (optional) `buffer.attemptEdit()` followed by `buffer.getLines`; a throw in
   either is its `.error` case.  `pdfExtract` is `extractPdfText`'s declared
   `Result<string>`. -/
structure FileEnv where
  existsOnDisk : Bool
  bufSyncInfo : Option BufSyncInfo
  bufStat : Except String Int
  bufChangeTick : Except String Nat
  bufLines : Except String (List String)
  diskRead : ReadResult
  binStat : Except String Int
  binRead : Except String String
  pdfExtract : Result String

/-!
### Reconciliation of one file
-/

/- The previous text content the agent saw:
   `fileInfo.agentView?.type === "text" ? fileInfo.agentView.content : undefined`. -/
def textView (f : TrackedFile) : Option String :=
  match f.agentView with
  | some (.text c) => some c
  | _ => none

/- The previous binary mtime the agent saw:
   `fileInfo.agentView?.type === "binary" ? fileInfo.agentView.mtime : undefined`. -/
def binaryMtime (f : TrackedFile) : Option Int :=
  match f.agentView with
  | some (.binary m) => some m
  | _ => none

/- The JS guard `prevMtime && prevMtime >= currentMtime`: `prevMtime` must be
   present and truthy (a number is truthy iff nonzero) and at least
   `currentMtime`. -/
def mtimeSeenAndNotNewer (prevMtime : Option Int) (currentMtime : Int) : Bool :=
  match prevMtime with
  | some pm => if pm = 0 then false else if currentMtime ≤ pm then true else false
  | none => false

/- Tail of `handleTextFileUpdate` once `currentFileContent` is known: record the
   new text view and choose whole-file / no update / diff.  Note the source's
   `if (!prevContent)` check: the empty string is falsy in JS, so an empty
   previous view is treated like an absent one and yields `whole-file`. -/
def textCompare (f : TrackedFile) (currentFileContent : String) :
    TrackedFile × Option (Result FileUpdate) :=
  let f' : TrackedFile := { f with agentView := some (.text currentFileContent) }
  match textView f with
  | none => (f', some (.ok (.wholeFile currentFileContent)))
  | some prev =>
    if prev = "" then (f', some (.ok (.wholeFile currentFileContent)))
    else if prev = currentFileContent then (f', none)
    else (f', some (.ok (.diff (createPatch prev currentFileContent))))

/- `handleTextFileUpdate`.  First component: the file's registry entry after the
   call (`none` = deleted from `this.files`).  Second component: `Except.error`
   models the `throw err` rethrow of a non-ENOENT read failure; `Except.ok`
   carries the returned entry's update (`none` = the `undefined` return). -/
def handleTextFileUpdate (absFilePath : String) (env : FileEnv) (f : TrackedFile) :
    Option TrackedFile × Except String (Option (Result FileUpdate)) :=
  match env.bufSyncInfo with
  | some syncInfo =>
    match env.bufStat with
    | .error e => (some f, .ok (some (.error
        ("Error when trying to grab the context of the file " ++ absFilePath ++ ": " ++ e))))
    | .ok diskMtime =>
      match env.bufChangeTick with
      | .error e => (some f, .ok (some (.error
          ("Error when trying to grab the context of the file " ++ absFilePath ++ ": " ++ e))))
      | .ok currentChangeTick =>
        if syncInfo.changeTick ≠ currentChangeTick ∧ syncInfo.mtime < diskMtime then
          (some f, .ok (some (.error
            ("Both the buffer " ++ toString syncInfo.bufnr ++ " and the file on disk for "
              ++ absFilePath ++ " have changed. Cannot determine which version to use."))))
        else
          match env.bufLines with
          | .error e => (some f, .ok (some (.error
              ("Error when trying to grab the context of the file " ++ absFilePath ++ ": " ++ e))))
          | .ok lines =>
            let r := textCompare f (String.intercalate "\n" lines)
            (some r.1, .ok r.2)
  | none =>
    match env.diskRead with
    | .enoent => (none, .ok (some (.ok .fileDeleted)))
    | .ioerr e => (some f, .error e)
    | .ok content =>
      let r := textCompare f content
      (some r.1, .ok r.2)

/- `handleBinaryFileUpdate`.  Every failure in its body is caught by its own
   try/catch, so nothing is rethrown.  Note that `agentView` is overwritten
   with `binary(currentMtime)` as soon as the stat succeeds, before the
   unchanged check and before PDF extraction. -/
def handleBinaryFileUpdate (absFilePath : String) (env : FileEnv) (f : TrackedFile) :
    TrackedFile × Option (Result FileUpdate) :=
  match env.binStat with
  | .error e =>
    (f, some (.error ("Error checking file stats for " ++ absFilePath ++ ": " ++ e)))
  | .ok currentMtime =>
    let prevMtime := binaryMtime f
    let f' : TrackedFile := { f with agentView := some (.binary currentMtime) }
    if mtimeSeenAndNotNewer prevMtime currentMtime then
      (f', none)
    else
      if f.fileTypeInfo.category = .pdf then
        match env.pdfExtract with
        | .error e => (f', some (.error e))
        | .ok extracted => (f', some (.ok (.wholeFile extracted)))
      else
        match env.binRead with
        | .error e =>
          (f', some (.error ("Error checking file stats for " ++ absFilePath ++ ": " ++ e)))
        | .ok b64 => (f', some (.ok (.wholeFile b64)))

/- `getFileMessageAndUpdateAgentViewOfFile` for a file present in the registry:
   existence check, then dispatch on the category. -/
def getFileMessageAndUpdateAgentViewOfFile (absFilePath : String) (env : FileEnv)
    (f : TrackedFile) : Option TrackedFile × Except String (Option (Result FileUpdate)) :=
  if env.existsOnDisk then
    if f.fileTypeInfo.category = .text then
      handleTextFileUpdate absFilePath env f
    else
      let r := handleBinaryFileUpdate absFilePath env f
      (some r.1, .ok r.2)
  else
    (none, .ok (some (.ok .fileDeleted)))

/-!
### A synchronization pass and the manager operations
-/

/- The `Files` map, as an association list keyed by absolute path. -/
abbrev Files := List (String × TrackedFile)

/- `getContextUpdate`: fan out one reconciliation per tracked file.  All
   callbacks run (so every per-file registry mutation is applied), and the
   aggregated per-path result map is produced only when no callback threw
   (`Promise.all` rejects with the first exception otherwise). -/
def getContextUpdate (envs : String → FileEnv) (files : Files) :
    Files × Except String (List (String × Result FileUpdate)) :=
  let processed := files.map fun pf =>
    (pf.1, getFileMessageAndUpdateAgentViewOfFile pf.1 (envs pf.1) pf.2)
  let newFiles : Files := processed.filterMap fun pr => pr.2.1.map fun f => (pr.1, f)
  let throws := processed.filterMap fun pr =>
    match pr.2.2 with
    | .error e => some e
    | .ok _ => none
  let results := processed.filterMap fun pr =>
    match pr.2.2 with
    | .ok (some r) => some (pr.1, r)
    | _ => none
  (newFiles,
    match throws with
    | [] => .ok results
    | e :: _ => .error e)

/- The `Msg` cases of `ContextManager.update` that manage the registry
   ("open-file" only dispatches editor commands and "tool-applied" routes
   through tool application; neither is needed by the tracked-file claims). -/
inductive Msg where
  | addFileContext (relFilePath : String) (absFilePath : String) (fileTypeInfo : FileTypeInfo)
  | removeFileContext (absFilePath : String)

/- Insert-or-replace for the association-list registry (JS object assignment). -/
def setFile (files : Files) (absFilePath : String) (f : TrackedFile) : Files :=
  if files.any fun pf => pf.1 = absFilePath then
    files.map fun pf => if pf.1 = absFilePath then (pf.1, f) else pf
  else
    files ++ [(absFilePath, f)]

/- `ContextManager.update` on the modelled messages; the thrown exception for
   an UNSUPPORTED category is the `Except.error` case, raised before any
   mutation of the registry. -/
def ContextManager.update (files : Files) (msg : Msg) : Except String Files :=
  match msg with
  | .addFileContext rel abs fti =>
    if fti.category = .unsupported then
      .error ("Cannot add " ++ rel ++ " to context: files are not supported in context (detected MIME type: "
        ++ fti.mimeType ++ ")")
    else
      .ok (setFile files abs { relFilePath := rel, fileTypeInfo := fti, agentView := none })
  | .removeFileContext abs =>
    .ok (files.filter fun pf => pf.1 ≠ abs)

/- `ContextManager.reset`: set `agentView = undefined` for every tracked file. -/
def ContextManager.reset (files : Files) : Files :=
  files.map fun pf => (pf.1, { pf.2 with agentView := none })

/-!
### Lemmas about the DiffEngine model
-/

theorem take_commonPrefixLen {α : Type} [DecidableEq α] :
    ∀ (a b : List α), a.take (commonPrefixLen a b) = b.take (commonPrefixLen a b)
  | [], _ => by simp [commonPrefixLen]
  | _ :: _, [] => by simp [commonPrefixLen]
  | x :: xs, y :: ys => by
    by_cases h : x = y
    · simp [commonPrefixLen, h, take_commonPrefixLen xs ys]
    · simp [commonPrefixLen, h]

theorem splitKE_flatten : ∀ (cs : List Char), (splitKE cs).flatten = cs
  | [] => rfl
  | c :: cs => by
    have ih := splitKE_flatten cs
    unfold splitKE
    cases h : splitKE cs with
    | nil =>
      rw [h] at ih
      simp at ih
      simp [ih]
    | cons l ls =>
      rw [h] at ih
      simp only [List.flatten_cons] at ih
      by_cases hc : c = '\n' <;> simp [hc, List.flatten_cons, ih]

theorem drop_length_sub_eq {α : Type} (l : List α) (s : Nat) :
    l.drop (l.length - s) = (l.reverse.take s).reverse := by
  rw [List.reverse_take, List.reverse_reverse, List.length_reverse]

theorem patch_core {α : Type} [DecidableEq α] (a b : List α) (p s : Nat)
    (hp : p = commonPrefixLen a b)
    (hs : s = commonPrefixLen (a.drop p).reverse (b.drop p).reverse) :
    a.take p ++ (b.drop p).take ((b.drop p).length - s)
      ++ a.drop (p + ((a.drop p).length - s)) = b := by
  have h1 : a.take p = b.take p := by rw [hp]; exact take_commonPrefixLen a b
  have h2 : a.drop (p + ((a.drop p).length - s))
      = (a.drop p).drop ((a.drop p).length - s) := (List.drop_drop _ _ _).symm
  have h3 : (a.drop p).drop ((a.drop p).length - s)
      = (b.drop p).drop ((b.drop p).length - s) := by
    rw [drop_length_sub_eq, drop_length_sub_eq, hs, take_commonPrefixLen]
  rw [h1, h2, h3, List.append_assoc, List.take_append_drop, List.take_append_drop]

/- Round-trip of the modelled DiffEngine: applying the patch to the previous
   content reconstructs the current content with its end-of-file newline (which
   the diff ignores) stripped. -/
theorem applyPatch_createPatch (prev cur : String) :
    applyPatch prev (createPatch prev cur) = stripNlStr cur := by
  unfold applyPatch createPatch stripNlStr
  simp only
  congr 1
  conv_rhs => rw [← splitKE_flatten (stripNl cur.data)]
  exact congrArg List.flatten (patch_core _ _ _ _ rfl rfl)

/- `stripNlStr` either is the identity or removes exactly one final newline. -/
theorem stripNlStr_cases (s : String) :
    stripNlStr s = s ∨ s.data = (stripNlStr s).data ++ ['\n'] := by
  unfold stripNlStr stripNl
  by_cases h : s.data.getLast? = some '\n'
  · right
    rw [if_pos h]
    show s.data = s.data.dropLast ++ ['\n']
    have hne : s.data ≠ [] := by
      intro he
      rw [he] at h
      simp at h
    have hg : s.data.getLast hne = '\n' := by
      have hx := List.getLast?_eq_getLast s.data hne
      rw [h] at hx
      exact (Option.some_inj.mp hx).symm
    calc s.data = s.data.dropLast ++ [s.data.getLast hne] :=
          (List.dropLast_append_getLast hne).symm
      _ = s.data.dropLast ++ ['\n'] := by rw [hg]
  · left
    rw [if_neg h]

/-!
### Helper reductions for the reconciliation function
-/

/- Reconciling a text file that exists on disk and is not open in a buffer
   reduces to reading the disk content and comparing. -/
theorem reconcile_disk_text (absFilePath : String) (env : FileEnv) (f : TrackedFile)
    (c : String)
    (hex : env.existsOnDisk = true) (hcat : f.fileTypeInfo.category = .text)
    (hnobuf : env.bufSyncInfo = none) (hread : env.diskRead = .ok c) :
    getFileMessageAndUpdateAgentViewOfFile absFilePath env f
      = (some (textCompare f c).1, .ok (textCompare f c).2) := by
  simp [getFileMessageAndUpdateAgentViewOfFile, hex, hcat, handleTextFileUpdate, hnobuf, hread]

/-!
### C1: conflict detection
-/

/-- C1: for a tracked text file open in a buffer, if the buffer's change counter
differs from the last-observed counter and the disk mtime is newer than the
last sync time, reconciliation returns a per-file error (Conflict), the file's
`agentView` is not mutated, and the file remains tracked (registry entry is the
unchanged file). -/
theorem conflict_returns_error_and_preserves_agentView
    (absFilePath : String) (env : FileEnv) (f : TrackedFile) (si : BufSyncInfo)
    (m : Int) (ct : Nat)
    (hex : env.existsOnDisk = true)
    (hcat : f.fileTypeInfo.category = .text)
    (hbuf : env.bufSyncInfo = some si)
    (hstat : env.bufStat = .ok m)
    (htick : env.bufChangeTick = .ok ct)
    (hchanged : si.changeTick ≠ ct)
    (hnewer : si.mtime < m) :
    getFileMessageAndUpdateAgentViewOfFile absFilePath env f
      = (some f, .ok (some (.error
          ("Both the buffer " ++ toString si.bufnr ++ " and the file on disk for "
            ++ absFilePath ++ " have changed. Cannot determine which version to use.")))) := by
  simp [getFileMessageAndUpdateAgentViewOfFile, hex, hcat, handleTextFileUpdate, hbuf,
    hstat, htick, hchanged, hnewer]

/-- C1 witness: the conflict theorem applied at a concrete file, buffer and
environment. -/
theorem conflict_witness :
    getFileMessageAndUpdateAgentViewOfFile "/w/t.txt"
      { existsOnDisk := true, bufSyncInfo := some ⟨3, 5, 10⟩, bufStat := .ok 20,
        bufChangeTick := .ok 7, bufLines := .ok ["x"], diskRead := .ok "x",
        binStat := .ok 0, binRead := .ok "", pdfExtract := .ok "" }
      ⟨"t.txt", ⟨.text, "text/plain"⟩, some (.text "x")⟩
      = (some ⟨"t.txt", ⟨.text, "text/plain"⟩, some (.text "x")⟩,
         .ok (some (.error
          ("Both the buffer " ++ toString (3 : Nat) ++ " and the file on disk for /w/t.txt have changed. Cannot determine which version to use.")))) :=
  conflict_returns_error_and_preserves_agentView "/w/t.txt" _ _ ⟨3, 5, 10⟩ 20 7
    rfl rfl rfl rfl rfl (by decide) (by decide)

/-!
### C5: diff round-trip
-/

/-- C5 counterexample: for the pair (previous = "a", current = "a\n"), which
differ only by a final newline, reconciliation returns a Diff, but applying the
returned patch to the previous content does not reproduce the current content
(the diff deliberately ignores the end-of-file newline). -/
theorem diff_round_trip_fails_on_trailing_newline_cex :
    (getFileMessageAndUpdateAgentViewOfFile "/w/a.txt"
      { existsOnDisk := true, bufSyncInfo := none, bufStat := .ok 0,
        bufChangeTick := .ok 0, bufLines := .ok [], diskRead := .ok "a\n",
        binStat := .ok 0, binRead := .ok "", pdfExtract := .ok "" }
      ⟨"a.txt", ⟨.text, "text/plain"⟩, some (.text "a")⟩).2
      = .ok (some (.ok (.diff (createPatch "a" "a\n"))))
    ∧ applyPatch "a" (createPatch "a" "a\n") ≠ "a\n" :=
  ⟨rfl, by decide⟩

/-- C5 (amended): whenever reconciliation of a text file returns a Diff,
applying the returned patch to the previous `agentView` content reproduces the
current content up to the deliberately ignored end-of-file newline: the result
is `stripNlStr cur`, which is `cur` itself or `cur` minus a single final
newline character. -/
theorem diff_round_trip_modulo_trailing_newline
    (absFilePath : String) (env : FileEnv) (f : TrackedFile) (prev cur : String)
    (patch : PatchData)
    (hex : env.existsOnDisk = true) (hcat : f.fileTypeInfo.category = .text)
    (hnobuf : env.bufSyncInfo = none) (hread : env.diskRead = .ok cur)
    (hprev : f.agentView = some (.text prev))
    (hdiff : (getFileMessageAndUpdateAgentViewOfFile absFilePath env f).2
      = .ok (some (.ok (.diff patch)))) :
    applyPatch prev patch = stripNlStr cur
    ∧ (stripNlStr cur = cur ∨ cur.data = (stripNlStr cur).data ++ ['\n']) := by
  rw [reconcile_disk_text absFilePath env f cur hex hcat hnobuf hread] at hdiff
  have h2 : (textCompare f cur).2 = some (.ok (.diff patch)) := by
    simpa using hdiff
  have hpatch : patch = createPatch prev cur := by
    simp only [textCompare, textView, hprev] at h2
    split_ifs at h2 <;> simp_all
  rw [hpatch]
  exact ⟨applyPatch_createPatch prev cur, stripNlStr_cases cur⟩

/-- C5 witness: the amended round-trip theorem applied at the concrete pair
("foo\n", "foo\nbar\n"), where a Diff is returned and the patch applies back
exactly up to the final newline. -/
theorem diff_round_trip_witness :
    applyPatch "foo\n" (createPatch "foo\n" "foo\nbar\n") = stripNlStr "foo\nbar\n"
    ∧ (stripNlStr "foo\nbar\n" = "foo\nbar\n"
       ∨ ("foo\nbar\n" : String).data = (stripNlStr "foo\nbar\n").data ++ ['\n']) :=
  diff_round_trip_modulo_trailing_newline "/w/f.txt"
    { existsOnDisk := true, bufSyncInfo := none, bufStat := .ok 0,
      bufChangeTick := .ok 0, bufLines := .ok [], diskRead := .ok "foo\nbar\n",
      binStat := .ok 0, binRead := .ok "", pdfExtract := .ok "" }
    ⟨"f.txt", ⟨.text, "text/plain"⟩, some (.text "foo\n")⟩ "foo\n" "foo\nbar\n"
    (createPatch "foo\n" "foo\nbar\n") rfl rfl rfl rfl rfl rfl

/-!
### Characterizations of `textCompare` and text reconciliation outcomes
-/

theorem textCompare_fst (f : TrackedFile) (c : String) :
    (textCompare f c).1 = { f with agentView := some (.text c) } := by
  cases htv : textView f with
  | none => simp [textCompare, htv]
  | some prev =>
    simp only [textCompare, htv]
    split_ifs <;> rfl

theorem handleText_ok_update (absFilePath : String) (env : FileEnv) (f : TrackedFile)
    (u : FileUpdate)
    (h : (handleTextFileUpdate absFilePath env f).2 = .ok (some (.ok u)))
    (hnd : u ≠ .fileDeleted) :
    ∃ c, (textCompare f c).2 = some (.ok u) := by
  unfold handleTextFileUpdate at h
  split at h
  · split at h
    · simp at h
    · split at h
      · simp at h
      · split at h
        · simp at h
        · split at h
          · simp at h
          · exact ⟨_, by simpa using h⟩
  · split at h
    · simp at h
      exact absurd h.symm hnd
    · simp at h
    · exact ⟨_, by simpa using h⟩

theorem textCompare_wholeFile_iff (f : TrackedFile) (c : String) (u : FileUpdate)
    (h : (textCompare f c).2 = some (.ok u)) :
    (∃ w, u = .wholeFile w) ↔ (textView f = none ∨ textView f = some "") := by
  cases htv : textView f with
  | none =>
    simp only [textCompare, htv] at h
    simp at h
    exact ⟨fun _ => Or.inl rfl, fun _ => ⟨c, h.symm⟩⟩
  | some prev =>
    simp only [textCompare, htv] at h
    by_cases hp : prev = ""
    · rw [if_pos hp] at h
      simp at h
      exact ⟨fun _ => Or.inr (by rw [hp]), fun _ => ⟨c, h.symm⟩⟩
    · rw [if_neg hp] at h
      by_cases hc : prev = c
      · rw [if_pos hc] at h; simp at h
      · rw [if_neg hc] at h
        simp at h
        constructor
        · intro ⟨w, hw⟩
          rw [hw] at h
          exact absurd h (by simp)
        · intro hor
          rcases hor with h1 | h1
          · simp at h1
          · exact absurd (Option.some_inj.mp h1) hp

/-!
### C4: first-sight invariant for WholeFile
-/

/-- C4 counterexample: for a tracked empty text file, WholeFile is returned on
the first successful reconciliation (the None-to-Text transition) AND again on
the next successful reconciliation, because the source's `if (!prevContent)`
treats the recorded empty string as falsy.  So WholeFile is not returned
exactly once. -/
theorem whole_file_twice_on_empty_cex :
    getFileMessageAndUpdateAgentViewOfFile "/w/e.txt"
      { existsOnDisk := true, bufSyncInfo := none, bufStat := .ok 0,
        bufChangeTick := .ok 0, bufLines := .ok [], diskRead := .ok "",
        binStat := .ok 0, binRead := .ok "", pdfExtract := .ok "" }
      ⟨"e.txt", ⟨.text, "text/plain"⟩, none⟩
      = (some ⟨"e.txt", ⟨.text, "text/plain"⟩, some (.text "")⟩,
         .ok (some (.ok (.wholeFile ""))))
    ∧ getFileMessageAndUpdateAgentViewOfFile "/w/e.txt"
      { existsOnDisk := true, bufSyncInfo := none, bufStat := .ok 0,
        bufChangeTick := .ok 0, bufLines := .ok [], diskRead := .ok "",
        binStat := .ok 0, binRead := .ok "", pdfExtract := .ok "" }
      ⟨"e.txt", ⟨.text, "text/plain"⟩, some (.text "")⟩
      = (some ⟨"e.txt", ⟨.text, "text/plain"⟩, some (.text "")⟩,
         .ok (some (.ok (.wholeFile "")))) :=
  ⟨rfl, rfl⟩

/-- C4 (amended): a successful non-deletion reconciliation of a tracked text
file returns WholeFile exactly when the previously recorded text view is absent
or is the empty string (JS falsiness of the recorded content); consequently,
for a file whose delivered content is always nonempty, WholeFile occurs exactly
once — at the None-to-Text transition — and later successful reconciliations
return Diff or Unchanged. -/
theorem wholeFile_iff_prev_absent_or_empty
    (absFilePath : String) (env : FileEnv) (f : TrackedFile) (u : FileUpdate)
    (hcat : f.fileTypeInfo.category = .text)
    (hsucc : (getFileMessageAndUpdateAgentViewOfFile absFilePath env f).2
      = .ok (some (.ok u)))
    (hnd : u ≠ .fileDeleted) :
    (∃ w, u = .wholeFile w) ↔ (textView f = none ∨ textView f = some "") := by
  unfold getFileMessageAndUpdateAgentViewOfFile at hsucc
  by_cases hex : env.existsOnDisk = true
  · rw [if_pos hex, if_pos hcat] at hsucc
    obtain ⟨c, hc⟩ := handleText_ok_update absFilePath env f u hsucc hnd
    exact textCompare_wholeFile_iff f c u hc
  · rw [if_neg hex] at hsucc
    simp at hsucc
    first
    | exact absurd hsucc hnd
    | exact absurd hsucc.symm hnd

/-- C4 witness: the amended theorem applied to a file with no previous view and
nonempty content "hi", where the reconciliation indeed returns WholeFile. -/
theorem wholeFile_iff_witness :
    (∃ w, FileUpdate.wholeFile "hi" = FileUpdate.wholeFile w)
      ↔ (textView ⟨"h.txt", ⟨.text, "text/plain"⟩, none⟩ = none
          ∨ textView ⟨"h.txt", ⟨.text, "text/plain"⟩, none⟩ = some "") :=
  wholeFile_iff_prev_absent_or_empty "/w/h.txt"
    { existsOnDisk := true, bufSyncInfo := none, bufStat := .ok 0,
      bufChangeTick := .ok 0, bufLines := .ok [], diskRead := .ok "hi",
      binStat := .ok 0, binRead := .ok "", pdfExtract := .ok "" }
    ⟨"h.txt", ⟨.text, "text/plain"⟩, none⟩ (.wholeFile "hi") rfl rfl (by decide)

/-!
### C8: idempotence of reconciliation
-/

/-- C8 counterexample: for a tracked empty text file whose content does not
change, reconciling twice in a row returns WholeFile on BOTH calls — the
second call does not return Unchanged (the recorded empty content is falsy in
JS, so it is treated as never-seen). -/
theorem second_pass_empty_content_cex :
    getFileMessageAndUpdateAgentViewOfFile "/w/z.txt"
      { existsOnDisk := true, bufSyncInfo := none, bufStat := .ok 0,
        bufChangeTick := .ok 0, bufLines := .ok [], diskRead := .ok "",
        binStat := .ok 0, binRead := .ok "", pdfExtract := .ok "" }
      ⟨"z.txt", ⟨.text, "text/plain"⟩, none⟩
      = (some ⟨"z.txt", ⟨.text, "text/plain"⟩, some (.text "")⟩,
         .ok (some (.ok (.wholeFile ""))))
    ∧ getFileMessageAndUpdateAgentViewOfFile "/w/z.txt"
      { existsOnDisk := true, bufSyncInfo := none, bufStat := .ok 0,
        bufChangeTick := .ok 0, bufLines := .ok [], diskRead := .ok "",
        binStat := .ok 0, binRead := .ok "", pdfExtract := .ok "" }
      ⟨"z.txt", ⟨.text, "text/plain"⟩, some (.text "")⟩
      = (some ⟨"z.txt", ⟨.text, "text/plain"⟩, some (.text "")⟩,
         .ok (some (.ok (.wholeFile ""))))
    ∧ (Except.ok (some (Result.ok (FileUpdate.wholeFile "")))
        : Except String (Option (Result FileUpdate))) ≠ .ok none :=
  ⟨rfl, rfl, by simp⟩

/-- C8 (amended): for a tracked text file read from disk with NONEMPTY content
`c` that does not change between two passes: the first reconciliation records
`Text c` (returning WholeFile when the previous view was absent or empty, and
Diff when it was a different nonempty content), and the second reconciliation
returns Unchanged (no update entry) and leaves the registry entry exactly as it
was — no further mutation of the recorded view.  For empty content the second
call returns WholeFile again (see the counterexample). -/
theorem idempotent_second_reconcile_nonempty
    (absFilePath : String) (env : FileEnv) (f : TrackedFile) (c : String)
    (hex : env.existsOnDisk = true) (hcat : f.fileTypeInfo.category = .text)
    (hnobuf : env.bufSyncInfo = none) (hread : env.diskRead = .ok c)
    (hne : c ≠ "") :
    ∃ f1, (getFileMessageAndUpdateAgentViewOfFile absFilePath env f).1 = some f1
      ∧ f1.agentView = some (.text c)
      ∧ getFileMessageAndUpdateAgentViewOfFile absFilePath env f1 = (some f1, .ok none)
      ∧ ((textView f = none ∨ textView f = some "") →
          (getFileMessageAndUpdateAgentViewOfFile absFilePath env f).2
            = .ok (some (.ok (.wholeFile c))))
      ∧ (∀ p, textView f = some p → p ≠ "" → p ≠ c →
          (getFileMessageAndUpdateAgentViewOfFile absFilePath env f).2
            = .ok (some (.ok (.diff (createPatch p c))))) := by
  have h1 := reconcile_disk_text absFilePath env f c hex hcat hnobuf hread
  refine ⟨{ f with agentView := some (.text c) }, ?_, rfl, ?_, ?_, ?_⟩
  · rw [h1, textCompare_fst]
  · have hcat1 : ({ f with agentView := some (.text c) } : TrackedFile).fileTypeInfo.category
        = .text := hcat
    have h2 := reconcile_disk_text absFilePath env { f with agentView := some (.text c) } c
      hex hcat1 hnobuf hread
    rw [h2]
    have htv : textView { f with agentView := some (.text c) } = some c := rfl
    simp [textCompare, htv, hne]
  · intro hprev
    rw [h1]
    rcases hprev with htv | htv <;> simp [textCompare, htv]
  · intro p htv hpne hpc
    rw [h1]
    simp [textCompare, htv, hpne, hpc]

/-- C8 witness: the amended idempotence theorem applied at a concrete file
first seen with content "hi". -/
theorem idempotent_second_witness :
    ∃ f1, (getFileMessageAndUpdateAgentViewOfFile "/w/q.txt"
      { existsOnDisk := true, bufSyncInfo := none, bufStat := .ok 0,
        bufChangeTick := .ok 0, bufLines := .ok [], diskRead := .ok "hi",
        binStat := .ok 0, binRead := .ok "", pdfExtract := .ok "" }
      ⟨"q.txt", ⟨.text, "text/plain"⟩, none⟩).1 = some f1
      ∧ f1.agentView = some (.text "hi")
      ∧ getFileMessageAndUpdateAgentViewOfFile "/w/q.txt"
          { existsOnDisk := true, bufSyncInfo := none, bufStat := .ok 0,
            bufChangeTick := .ok 0, bufLines := .ok [], diskRead := .ok "hi",
            binStat := .ok 0, binRead := .ok "", pdfExtract := .ok "" } f1
          = (some f1, .ok none)
      ∧ ((textView ⟨"q.txt", ⟨.text, "text/plain"⟩, none⟩ = none
            ∨ textView ⟨"q.txt", ⟨.text, "text/plain"⟩, none⟩ = some "") →
          (getFileMessageAndUpdateAgentViewOfFile "/w/q.txt"
            { existsOnDisk := true, bufSyncInfo := none, bufStat := .ok 0,
              bufChangeTick := .ok 0, bufLines := .ok [], diskRead := .ok "hi",
              binStat := .ok 0, binRead := .ok "", pdfExtract := .ok "" }
            ⟨"q.txt", ⟨.text, "text/plain"⟩, none⟩).2
            = .ok (some (.ok (.wholeFile "hi"))))
      ∧ (∀ p, textView ⟨"q.txt", ⟨.text, "text/plain"⟩, none⟩ = some p → p ≠ "" → p ≠ "hi" →
          (getFileMessageAndUpdateAgentViewOfFile "/w/q.txt"
            { existsOnDisk := true, bufSyncInfo := none, bufStat := .ok 0,
              bufChangeTick := .ok 0, bufLines := .ok [], diskRead := .ok "hi",
              binStat := .ok 0, binRead := .ok "", pdfExtract := .ok "" }
            ⟨"q.txt", ⟨.text, "text/plain"⟩, none⟩).2
            = .ok (some (.ok (.diff (createPatch p "hi"))))) :=
  idempotent_second_reconcile_nonempty "/w/q.txt" _
    ⟨"q.txt", ⟨.text, "text/plain"⟩, none⟩ "hi" rfl rfl rfl rfl (by decide)

/-!
### C2: PDF extraction failure
-/

/-- C2 counterexample: a tracked PDF previously seen at mtime 1, now at mtime 2
on disk; text extraction fails, the per-file error is returned — but the file's
`agentView` HAS been mutated to `binary 2` (the claim demands it stay
`binary 1` so that extraction is retried next pass). -/
theorem pdf_extraction_failure_mutates_view_cex :
    getFileMessageAndUpdateAgentViewOfFile "/w/doc.pdf"
      { existsOnDisk := true, bufSyncInfo := none, bufStat := .ok 0,
        bufChangeTick := .ok 0, bufLines := .ok [], diskRead := .ok "",
        binStat := .ok 2, binRead := .ok "", pdfExtract := .error "boom" }
      ⟨"doc.pdf", ⟨.pdf, "application/pdf"⟩, some (.binary 1)⟩
      = (some ⟨"doc.pdf", ⟨.pdf, "application/pdf"⟩, some (.binary 2)⟩,
         .ok (some (.error "boom")))
    ∧ (some (AgentView.binary 2) : Option AgentView) ≠ some (.binary 1) :=
  ⟨rfl, by decide⟩

/-- C2 (amended): for a tracked PDF file whose disk mtime is unseen, zero, or
newer than the recorded one, a failed text extraction returns the extraction
error per-file and the file stays tracked, but `agentView` has already been set
to `binary(currentMtime)` (not left unchanged) — so a later pass that observes
the same nonzero mtime returns Unchanged and the extraction is NOT retried. -/
theorem pdf_extraction_failure_behavior
    (absFilePath : String) (env : FileEnv) (f : TrackedFile) (m : Int) (e : String)
    (hex : env.existsOnDisk = true)
    (hcat : f.fileTypeInfo.category = .pdf)
    (hstat : env.binStat = .ok m)
    (hnew : mtimeSeenAndNotNewer (binaryMtime f) m = false)
    (hfail : env.pdfExtract = .error e) :
    getFileMessageAndUpdateAgentViewOfFile absFilePath env f
      = (some { f with agentView := some (.binary m) }, .ok (some (.error e)))
    ∧ (m ≠ 0 → ∀ env2 : FileEnv, env2.existsOnDisk = true → env2.binStat = .ok m →
        getFileMessageAndUpdateAgentViewOfFile absFilePath env2
            { f with agentView := some (.binary m) }
          = (some { f with agentView := some (.binary m) }, .ok none)) := by
  constructor
  · simp [getFileMessageAndUpdateAgentViewOfFile, hex, hcat, handleBinaryFileUpdate,
      hstat, hnew, hfail]
  · intro hm env2 hex2 hstat2
    have hmt : mtimeSeenAndNotNewer
        (binaryMtime { f with agentView := some (.binary m) }) m = true := by
      simp [binaryMtime, mtimeSeenAndNotNewer, hm]
    simp [getFileMessageAndUpdateAgentViewOfFile, hex2, hcat, handleBinaryFileUpdate,
      hstat2, hmt]

/-- C2 witness: the amended theorem applied at the concrete PDF scenario
(recorded mtime 1, disk mtime 2, failing extractor). -/
theorem pdf_extraction_failure_witness :
    getFileMessageAndUpdateAgentViewOfFile "/w/d2.pdf"
      { existsOnDisk := true, bufSyncInfo := none, bufStat := .ok 0,
        bufChangeTick := .ok 0, bufLines := .ok [], diskRead := .ok "",
        binStat := .ok 2, binRead := .ok "", pdfExtract := .error "bad pdf" }
      ⟨"d2.pdf", ⟨.pdf, "application/pdf"⟩, some (.binary 1)⟩
      = (some ⟨"d2.pdf", ⟨.pdf, "application/pdf"⟩, some (.binary 2)⟩,
         .ok (some (.error "bad pdf")))
    ∧ ((2 : Int) ≠ 0 → ∀ env2 : FileEnv, env2.existsOnDisk = true → env2.binStat = .ok 2 →
        getFileMessageAndUpdateAgentViewOfFile "/w/d2.pdf" env2
            ⟨"d2.pdf", ⟨.pdf, "application/pdf"⟩, some (.binary 2)⟩
          = (some ⟨"d2.pdf", ⟨.pdf, "application/pdf"⟩, some (.binary 2)⟩, .ok none)) :=
  pdf_extraction_failure_behavior "/w/d2.pdf" _
    ⟨"d2.pdf", ⟨.pdf, "application/pdf"⟩, some (.binary 1)⟩ 2 "bad pdf"
    rfl rfl rfl (by decide) rfl

/-!
### C7: binary (image) reconciliation
-/

/-- C7 counterexample: an image file recorded at mtime 5 whose disk mtime is
now 3 — the mtimes differ, so the claim demands WholeFile with the re-encoded
bytes; the code instead returns no update (Unchanged), because its guard is
`prevMtime >= currentMtime`, and it still re-records `binary 3`. -/
theorem older_mtime_returns_unchanged_cex :
    getFileMessageAndUpdateAgentViewOfFile "/w/i.png"
      { existsOnDisk := true, bufSyncInfo := none, bufStat := .ok 0,
        bufChangeTick := .ok 0, bufLines := .ok [], diskRead := .ok "",
        binStat := .ok 3, binRead := .ok "QUJD", pdfExtract := .ok "" }
      ⟨"i.png", ⟨.image, "image/png"⟩, some (.binary 5)⟩
      = (some ⟨"i.png", ⟨.image, "image/png"⟩, some (.binary 3)⟩, .ok none)
    ∧ (3 : Int) ≠ 5 :=
  ⟨rfl, by decide⟩

/-- C7 (amended): for a tracked image file with a successful stat (mtime `m`)
and read (base64 `b`): if the recorded binary mtime is absent, zero, or older
than `m`, reconciliation returns WholeFile `b` and records `binary m`; if the
recorded mtime is nonzero and at least `m` (so also when the disk mtime moved
BACKWARDS), it returns Unchanged — and in both cases `agentView` is
re-recorded as `binary m`. -/
theorem binary_image_update_behavior
    (absFilePath : String) (env : FileEnv) (f : TrackedFile) (m : Int) (b : String)
    (hex : env.existsOnDisk = true)
    (hcat : f.fileTypeInfo.category = .image)
    (hstat : env.binStat = .ok m)
    (hb : env.binRead = .ok b) :
    (mtimeSeenAndNotNewer (binaryMtime f) m = false →
      getFileMessageAndUpdateAgentViewOfFile absFilePath env f
        = (some { f with agentView := some (.binary m) }, .ok (some (.ok (.wholeFile b)))))
    ∧ (mtimeSeenAndNotNewer (binaryMtime f) m = true →
      getFileMessageAndUpdateAgentViewOfFile absFilePath env f
        = (some { f with agentView := some (.binary m) }, .ok none)) := by
  constructor
  · intro hnew
    simp [getFileMessageAndUpdateAgentViewOfFile, hex, hcat, handleBinaryFileUpdate,
      hstat, hnew, hb]
  · intro hseen
    simp [getFileMessageAndUpdateAgentViewOfFile, hex, hcat, handleBinaryFileUpdate,
      hstat, hseen]

/-- C7 witness: the amended theorem applied at a never-seen image file with
disk mtime 7 and base64 content "QQ==", which yields WholeFile. -/
theorem binary_image_update_witness :
    (mtimeSeenAndNotNewer (binaryMtime ⟨"p.png", ⟨.image, "image/png"⟩, none⟩) 7 = false →
      getFileMessageAndUpdateAgentViewOfFile "/w/p.png"
        { existsOnDisk := true, bufSyncInfo := none, bufStat := .ok 0,
          bufChangeTick := .ok 0, bufLines := .ok [], diskRead := .ok "",
          binStat := .ok 7, binRead := .ok "QQ==", pdfExtract := .ok "" }
        ⟨"p.png", ⟨.image, "image/png"⟩, none⟩
        = (some ⟨"p.png", ⟨.image, "image/png"⟩, some (.binary 7)⟩,
           .ok (some (.ok (.wholeFile "QQ==")))))
    ∧ (mtimeSeenAndNotNewer (binaryMtime ⟨"p.png", ⟨.image, "image/png"⟩, none⟩) 7 = true →
      getFileMessageAndUpdateAgentViewOfFile "/w/p.png"
        { existsOnDisk := true, bufSyncInfo := none, bufStat := .ok 0,
          bufChangeTick := .ok 0, bufLines := .ok [], diskRead := .ok "",
          binStat := .ok 7, binRead := .ok "QQ==", pdfExtract := .ok "" }
        ⟨"p.png", ⟨.image, "image/png"⟩, none⟩
        = (some ⟨"p.png", ⟨.image, "image/png"⟩, some (.binary 7)⟩, .ok none)) :=
  binary_image_update_behavior "/w/p.png" _
    ⟨"p.png", ⟨.image, "image/png"⟩, none⟩ 7 "QQ==" rfl rfl rfl rfl

/-!
### Characterization of thrown (uncaught) reconciliation failures
-/

/- The ONLY uncaught exception in a per-file reconciliation is the `throw err`
   rethrow of a non-ENOENT read failure for a text file that exists on disk and
   is not open in any buffer; every other failure is caught and returned as a
   per-file error. -/
theorem reconcile_throw_characterization (absFilePath : String) (env : FileEnv)
    (f : TrackedFile) (e : String)
    (h : (getFileMessageAndUpdateAgentViewOfFile absFilePath env f).2 = .error e) :
    f.fileTypeInfo.category = .text ∧ env.existsOnDisk = true
      ∧ env.bufSyncInfo = none ∧ env.diskRead = .ioerr e := by
  unfold getFileMessageAndUpdateAgentViewOfFile at h
  split at h
  case isTrue hex =>
    split at h
    case isTrue hcat =>
      unfold handleTextFileUpdate at h
      split at h
      case h_1 si hbuf =>
        split at h
        · simp at h
        · split at h
          · simp at h
          · split at h
            · simp at h
            · split at h
              · simp at h
              · simp at h
      case h_2 hbuf =>
        split at h
        · simp at h
        · case h_2 msg hread =>
          simp only [Except.error.injEq] at h
          subst h
          exact ⟨hcat, hex, hbuf, hread⟩
        · simp at h
    case isFalse hcat => simp at h
  case isFalse hex => simp at h

/-!
### Lemmas about a whole pass
-/

/- Keys of the updated registry after a pass are keys of the old registry. -/
theorem getContextUpdate_newFiles_keys (envs : String → FileEnv) (files : Files)
    (p : String) (hp : p ∈ (getContextUpdate envs files).1.map Prod.fst) :
    p ∈ files.map Prod.fst := by
  simp only [getContextUpdate] at hp
  rw [List.mem_map] at hp
  obtain ⟨q, hq, hfst⟩ := hp
  rw [List.mem_filterMap] at hq
  obtain ⟨pr, hpr, hg⟩ := hq
  rw [List.mem_map] at hpr
  obtain ⟨pf, hpf, rfl⟩ := hpr
  rw [Option.map_eq_some'] at hg
  obtain ⟨f', _, rfl⟩ := hg
  exact List.mem_map.mpr ⟨pf, hpf, hfst⟩

/- When a pass returns a result map, its keys are keys of the registry. -/
theorem getContextUpdate_results_keys (envs : String → FileEnv) (files : Files)
    (rs : List (String × Result FileUpdate)) (p : String)
    (hok : (getContextUpdate envs files).2 = .ok rs)
    (hp : p ∈ rs.map Prod.fst) : p ∈ files.map Prod.fst := by
  simp only [getContextUpdate] at hok
  split at hok
  · rw [Except.ok.injEq] at hok
    subst hok
    rw [List.mem_map] at hp
    obtain ⟨q, hq, hfst⟩ := hp
    rw [List.mem_filterMap] at hq
    obtain ⟨pr, hpr, hg⟩ := hq
    rw [List.mem_map] at hpr
    obtain ⟨pf, hpf, rfl⟩ := hpr
    have hq1 : q.1 = pf.1 := by
      revert hg
      cases (getFileMessageAndUpdateAgentViewOfFile pf.1 (envs pf.1) pf.2).2 with
      | error e => simp
      | ok o =>
        cases o with
        | none => simp
        | some r =>
          cases r <;>
            (intro hg
             simp only [Option.some_inj] at hg
             exact (congrArg Prod.fst hg).symm)
    exact List.mem_map.mpr ⟨pf, hpf, by rw [← hq1, hfst]⟩
  · cases hok

/-!
### C3: isolation of per-file errors
-/

/-- C3 counterexample: two tracked text files, neither open in a buffer; the
read of the first fails with a non-ENOENT I/O error ("EACCES").  That error is
rethrown, so the pass rejects with the error instead of returning the per-path
result map — the failure is NOT isolated and the second file's result is
lost. -/
theorem disk_read_ioerr_aborts_pass_cex :
    (getContextUpdate
      (fun p => if p = "/w/a.txt" then
        { existsOnDisk := true, bufSyncInfo := none, bufStat := .ok 0,
          bufChangeTick := .ok 0, bufLines := .ok [], diskRead := .ioerr "EACCES",
          binStat := .ok 0, binRead := .ok "", pdfExtract := .ok "" }
      else
        { existsOnDisk := true, bufSyncInfo := none, bufStat := .ok 0,
          bufChangeTick := .ok 0, bufLines := .ok [], diskRead := .ok "hello",
          binStat := .ok 0, binRead := .ok "", pdfExtract := .ok "" })
      [("/w/a.txt", ⟨"a.txt", ⟨.text, "text/plain"⟩, none⟩),
       ("/w/b.txt", ⟨"b.txt", ⟨.text, "text/plain"⟩, none⟩)]).2
      = .error "EACCES" := rfl

/-- C3 (amended): per-file failures that the code catches are isolated: as long
as no tracked file is a bufferless existing text file whose read fails with a
non-ENOENT I/O error (the one rethrown case), the pass returns the per-path
result map, and every caught per-file error appears in that map under its
path. -/
theorem caught_errors_isolated
    (envs : String → FileEnv) (files : Files)
    (hsafe : ∀ pf ∈ files, ∀ e : String,
      ¬(pf.2.fileTypeInfo.category = .text ∧ (envs pf.1).existsOnDisk = true
        ∧ (envs pf.1).bufSyncInfo = none ∧ (envs pf.1).diskRead = .ioerr e)) :
    ∃ rs, (getContextUpdate envs files).2 = .ok rs
      ∧ ∀ pf ∈ files, ∀ e : String,
          (getFileMessageAndUpdateAgentViewOfFile pf.1 (envs pf.1) pf.2).2
            = .ok (some (.error e))
          → (pf.1, Result.error e) ∈ rs := by
  have hthrows : (List.filterMap
      (fun pr => match pr.2.2 with | .error e => some e | .ok _ => none)
      (files.map fun pf =>
        (pf.1, getFileMessageAndUpdateAgentViewOfFile pf.1 (envs pf.1) pf.2))) = [] := by
    rw [List.filterMap_eq_nil_iff]
    intro pr hpr
    rw [List.mem_map] at hpr
    obtain ⟨pf, hpf, rfl⟩ := hpr
    cases hsnd : (getFileMessageAndUpdateAgentViewOfFile pf.1 (envs pf.1) pf.2).2 with
    | error e =>
      exact absurd (reconcile_throw_characterization pf.1 (envs pf.1) pf.2 e hsnd)
        (hsafe pf hpf e)
    | ok o => simp [hsnd]
  refine ⟨List.filterMap
      (fun pr => match pr.2.2 with | .ok (some r) => some (pr.1, r) | _ => none)
      (files.map fun pf =>
        (pf.1, getFileMessageAndUpdateAgentViewOfFile pf.1 (envs pf.1) pf.2)), ?_, ?_⟩
  · simp only [getContextUpdate]
    rw [hthrows]
  · intro pf hpf e hre
    refine List.mem_filterMap.mpr
      ⟨(pf.1, getFileMessageAndUpdateAgentViewOfFile pf.1 (envs pf.1) pf.2),
        List.mem_map.mpr ⟨pf, hpf, rfl⟩, ?_⟩
    simp [hre]

/-- C3 witness: the isolation theorem applied to a single healthy tracked text
file (no rethrown read error anywhere). -/
theorem caught_errors_isolated_witness :
    ∃ rs, (getContextUpdate
        (fun _ =>
          { existsOnDisk := true, bufSyncInfo := none, bufStat := .ok 0,
            bufChangeTick := .ok 0, bufLines := .ok [], diskRead := .ok "hello",
            binStat := .ok 0, binRead := .ok "", pdfExtract := .ok "" })
        [("/w/b.txt", ⟨"b.txt", ⟨.text, "text/plain"⟩, none⟩)]).2 = .ok rs
      ∧ ∀ pf ∈ [("/w/b.txt", (⟨"b.txt", ⟨.text, "text/plain"⟩, none⟩ : TrackedFile))],
          ∀ e : String,
          (getFileMessageAndUpdateAgentViewOfFile pf.1
            { existsOnDisk := true, bufSyncInfo := none, bufStat := .ok 0,
              bufChangeTick := .ok 0, bufLines := .ok [], diskRead := .ok "hello",
              binStat := .ok 0, binRead := .ok "", pdfExtract := .ok "" } pf.2).2
            = .ok (some (.error e))
          → (pf.1, Result.error e) ∈ rs :=
  caught_errors_isolated _ _
    (by
      intro pf hpf e hcl
      exact absurd hcl.2.2.2 (by simp))

/-!
### C6: deletion
-/

/-- C6: a tracked file whose path does not exist on disk at reconciliation time
(also via the ENOENT race on the bufferless read of a text file) reconciles to
a Deleted update and is removed from the registry; and a path absent from the
registry is mentioned neither in a pass's result map nor in the registry the
pass leaves behind. -/
theorem deleted_file_removed_and_forgotten
    (absFilePath p : String) (env env2 : FileEnv) (f : TrackedFile)
    (envs : String → FileEnv) (files : Files)
    (h1 : env.existsOnDisk = false)
    (h2a : env2.existsOnDisk = true) (h2b : f.fileTypeInfo.category = .text)
    (h2c : env2.bufSyncInfo = none) (h2d : env2.diskRead = .enoent)
    (h3 : p ∉ files.map Prod.fst) :
    getFileMessageAndUpdateAgentViewOfFile absFilePath env f
      = (none, .ok (some (.ok .fileDeleted)))
    ∧ getFileMessageAndUpdateAgentViewOfFile absFilePath env2 f
      = (none, .ok (some (.ok .fileDeleted)))
    ∧ p ∉ (getContextUpdate envs files).1.map Prod.fst
    ∧ ∀ rs, (getContextUpdate envs files).2 = .ok rs → p ∉ rs.map Prod.fst := by
  refine ⟨?_, ?_, ?_, ?_⟩
  · simp [getFileMessageAndUpdateAgentViewOfFile, h1]
  · simp [getFileMessageAndUpdateAgentViewOfFile, h2a, h2b, handleTextFileUpdate, h2c, h2d]
  · intro hp
    exact h3 (getContextUpdate_newFiles_keys envs files p hp)
  · intro rs hok hp
    exact h3 (getContextUpdate_results_keys envs files rs p hok hp)

/-- C6 witness: the deletion theorem applied at a concrete vanished file and an
empty registry. -/
theorem deleted_file_witness :
    getFileMessageAndUpdateAgentViewOfFile "/w/gone.txt"
      { existsOnDisk := false, bufSyncInfo := none, bufStat := .ok 0,
        bufChangeTick := .ok 0, bufLines := .ok [], diskRead := .ok "",
        binStat := .ok 0, binRead := .ok "", pdfExtract := .ok "" }
      ⟨"gone.txt", ⟨.text, "text/plain"⟩, some (.text "x")⟩
      = (none, .ok (some (.ok .fileDeleted)))
    ∧ getFileMessageAndUpdateAgentViewOfFile "/w/gone.txt"
      { existsOnDisk := true, bufSyncInfo := none, bufStat := .ok 0,
        bufChangeTick := .ok 0, bufLines := .ok [], diskRead := .enoent,
        binStat := .ok 0, binRead := .ok "", pdfExtract := .ok "" }
      ⟨"gone.txt", ⟨.text, "text/plain"⟩, some (.text "x")⟩
      = (none, .ok (some (.ok .fileDeleted)))
    ∧ "/w/gone.txt" ∉ (getContextUpdate
        (fun _ =>
          { existsOnDisk := true, bufSyncInfo := none, bufStat := .ok 0,
            bufChangeTick := .ok 0, bufLines := .ok [], diskRead := .ok "",
            binStat := .ok 0, binRead := .ok "", pdfExtract := .ok "" })
        ([] : Files)).1.map Prod.fst
    ∧ ∀ rs, (getContextUpdate
        (fun _ =>
          { existsOnDisk := true, bufSyncInfo := none, bufStat := .ok 0,
            bufChangeTick := .ok 0, bufLines := .ok [], diskRead := .ok "",
            binStat := .ok 0, binRead := .ok "", pdfExtract := .ok "" })
        ([] : Files)).2 = .ok rs → "/w/gone.txt" ∉ rs.map Prod.fst :=
  deleted_file_removed_and_forgotten "/w/gone.txt" "/w/gone.txt" _ _
    ⟨"gone.txt", ⟨.text, "text/plain"⟩, some (.text "x")⟩ _ []
    rfl rfl rfl rfl rfl (by simp)

/-!
### C9: unsupported category rejected at track time
-/

/-- C9: adding a file whose detected category is UNSUPPORTED to the context
fails synchronously with an error thrown before any mutation, so no tracked
file is produced; and since the path was never added, no reconciliation pass
over the (unchanged) registry mentions it. -/
theorem unsupported_category_rejected
    (files : Files) (rel abs : String) (fti : FileTypeInfo)
    (hcat : fti.category = .unsupported) :
    ContextManager.update files (.addFileContext rel abs fti)
      = .error ("Cannot add " ++ rel
          ++ " to context: files are not supported in context (detected MIME type: "
          ++ fti.mimeType ++ ")")
    ∧ ∀ envs : String → FileEnv, abs ∉ files.map Prod.fst →
        (∀ rs, (getContextUpdate envs files).2 = .ok rs → abs ∉ rs.map Prod.fst)
        ∧ abs ∉ (getContextUpdate envs files).1.map Prod.fst := by
  constructor
  · simp [ContextManager.update, hcat]
  · intro envs habs
    constructor
    · intro rs hok hmem
      exact habs (getContextUpdate_results_keys envs files rs abs hok hmem)
    · intro hmem
      exact habs (getContextUpdate_newFiles_keys envs files abs hmem)

/-- C9 witness: the rejection theorem applied at a concrete unsupported file. -/
theorem unsupported_category_witness :
    ContextManager.update [] (.addFileContext "x.bin" "/w/x.bin"
        ⟨.unsupported, "application/octet-stream"⟩)
      = .error ("Cannot add " ++ "x.bin"
          ++ " to context: files are not supported in context (detected MIME type: "
          ++ "application/octet-stream" ++ ")")
    ∧ ∀ envs : String → FileEnv, "/w/x.bin" ∉ ([] : Files).map Prod.fst →
        (∀ rs, (getContextUpdate envs ([] : Files)).2 = .ok rs
          → "/w/x.bin" ∉ rs.map Prod.fst)
        ∧ "/w/x.bin" ∉ (getContextUpdate envs ([] : Files)).1.map Prod.fst :=
  unsupported_category_rejected [] "x.bin" "/w/x.bin"
    ⟨.unsupported, "application/octet-stream"⟩ rfl

/-!
### C10: reset
-/

/-- C10: `reset` sets the agent view of every tracked file to none while
preserving the set of tracked paths and each file's other fields; consequently
a later successful non-deletion reconciliation of any of the (text) files
returns WholeFile (never Diff, and never the Unchanged no-update outcome in
this successful-update shape). -/
theorem reset_clears_agent_view (files : Files) :
    (ContextManager.reset files).map Prod.fst = files.map Prod.fst
    ∧ ∀ p f, (p, f) ∈ ContextManager.reset files →
        f.agentView = none
        ∧ (∃ g, (p, g) ∈ files ∧ f.relFilePath = g.relFilePath
            ∧ f.fileTypeInfo = g.fileTypeInfo)
        ∧ (∀ absFilePath env u, f.fileTypeInfo.category = .text →
            (getFileMessageAndUpdateAgentViewOfFile absFilePath env f).2
              = .ok (some (.ok u)) →
            u = .fileDeleted ∨ ∃ c, u = .wholeFile c) := by
  constructor
  · simp [ContextManager.reset]
  · intro p f hmem
    simp only [ContextManager.reset, List.mem_map] at hmem
    obtain ⟨pf, hpf, heq⟩ := hmem
    have hp : pf.1 = p := congrArg Prod.fst heq
    have hf : ({ pf.2 with agentView := none } : TrackedFile) = f := congrArg Prod.snd heq
    subst hp
    subst hf
    refine ⟨rfl, ⟨pf.2, by simpa using hpf, rfl, rfl⟩, ?_⟩
    intro absFilePath env u hcat hsucc
    by_cases hd : u = .fileDeleted
    · exact Or.inl hd
    · right
      unfold getFileMessageAndUpdateAgentViewOfFile at hsucc
      by_cases hex : env.existsOnDisk = true
      · rw [if_pos hex, if_pos hcat] at hsucc
        obtain ⟨c, hc⟩ := handleText_ok_update absFilePath env _ u hsucc hd
        exact (textCompare_wholeFile_iff _ c u hc).mpr (Or.inl rfl)
      · rw [if_neg hex] at hsucc
        simp at hsucc
        first
        | exact absurd hsucc hd
        | exact absurd hsucc.symm hd

/-- C10 witness: the reset theorem applied at a one-file registry whose file
had previously seen text content. -/
theorem reset_clears_agent_view_witness :
    ((⟨"x.txt", ⟨.text, "text/plain"⟩, none⟩ : TrackedFile)).agentView = none
    ∧ (∃ g, ("/w/x.txt", g) ∈
          [("/w/x.txt", (⟨"x.txt", ⟨.text, "text/plain"⟩, some (.text "old")⟩ : TrackedFile))]
        ∧ ((⟨"x.txt", ⟨.text, "text/plain"⟩, none⟩ : TrackedFile)).relFilePath = g.relFilePath
        ∧ ((⟨"x.txt", ⟨.text, "text/plain"⟩, none⟩ : TrackedFile)).fileTypeInfo = g.fileTypeInfo)
    ∧ (∀ absFilePath env u,
        ((⟨"x.txt", ⟨.text, "text/plain"⟩, none⟩ : TrackedFile)).fileTypeInfo.category = .text →
        (getFileMessageAndUpdateAgentViewOfFile absFilePath env
          ⟨"x.txt", ⟨.text, "text/plain"⟩, none⟩).2 = .ok (some (.ok u)) →
        u = .fileDeleted ∨ ∃ c, u = .wholeFile c) :=
  (reset_clears_agent_view
    [("/w/x.txt", ⟨"x.txt", ⟨.text, "text/plain"⟩, some (.text "old")⟩)]).2
    "/w/x.txt" ⟨"x.txt", ⟨.text, "text/plain"⟩, none⟩ (by decide)
